import Mathlib

/-!
Shallow embedding of `cachito/workers/scm.py` (classes `SCM` and `Git`).

Pure helpers model the Python library functions actually used by the source
(`os.path.join`, `os.path.dirname`, `os.path.basename`, `str.strip`,
`str.split`, `urllib.parse.urlparse(...).path`).  Stateful code is modelled
by explicit passing of a `World` record that carries the filesystem, the
process environment, a log of network operations, and the behaviour of the
remote repository at `self.url`.
-/

set_option autoImplicit false

namespace Cachito

/-- Characters of a string (exposes `String.data` under a stable name). -/
def chars (s : String) : List Char := s.data

/-- Model of Python `str.strip(c)`: drop every copy of `c` from both ends. -/
def stripBoth (c : Char) (cs : List Char) : List Char :=
  ((cs.dropWhile (fun x => x == c)).reverse.dropWhile (fun x => x == c)).reverse

/-- Model of Python `str.split(c)`: split on every occurrence of `c`. -/
def splitChar (c : Char) : List Char → List (List Char)
  | [] => [[]]
  | x :: rest =>
    match splitChar c rest with
    | [] => [[]]
    | g :: gs => if x == c then [] :: g :: gs else (x :: g) :: gs

/-- True when the list starts with a slash. -/
def headIsSlash : List Char → Bool
  | '/' :: _ => true
  | _ => false

/-- True when the list starts with a dot (a hidden file name, which shell
globbing skips). -/
def headIsDot : List Char → Bool
  | '.' :: _ => true
  | _ => false

/-- Model of `os.path.join(a, b)` for POSIX paths: an absolute `b` replaces
`a`; otherwise the parts are joined with a single separator. -/
def joinPath (a b : String) : String :=
  if headIsSlash (chars b) then b
  else if (chars a).isEmpty || headIsSlash (chars a).reverse then a ++ b
  else a ++ "/" ++ b

/-- Model of `os.path.join(root, *segments)` (left fold of `joinPath`). -/
def joinMany (root : String) (segs : List (List Char)) : String :=
  segs.foldl (fun acc s => joinPath acc (String.mk s)) root

/-- Characters after the last slash (the whole list when there is none). -/
def afterLastSlash (cs : List Char) : List Char :=
  (cs.reverse.takeWhile (fun c => c != '/')).reverse

/-- Model of `os.path.basename` for POSIX paths. -/
def pyBasename (p : String) : String := String.mk (afterLastSlash (chars p))

/-- Model of `os.path.dirname` for POSIX paths: the part before the last
slash, with trailing slashes removed unless the result is all slashes. -/
def pyDirname (p : String) : String :=
  let cs := chars p
  let head := cs.take (cs.length - (afterLastSlash cs).length)
  if !head.isEmpty && head.any (fun c => c != '/') then
    String.mk (head.reverse.dropWhile (fun c => c == '/')).reverse
  else String.mk head

/-- Model of `os.path.abspath` for inputs that are already normalised: an
absolute path is returned as is, a relative one is joined to the current
working directory (the `normpath` step is elided, so callers are expected
to supply normalised paths). -/
def pyAbspath (cwd p : String) : String :=
  if headIsSlash (chars p) then p else joinPath cwd p

/-- Scan for the first occurrence of the scheme separator and return the
characters after it: the core of the `urllib.parse.urlparse` behaviour the
source relies on. -/
def afterSchemeSep : List Char → Option (List Char)
  | ':' :: '/' :: '/' :: rest => some rest
  | _ :: rest => afterSchemeSep rest
  | [] => none

/-- True for the characters that end the path component of a URL. -/
def isQueryOrFrag (c : Char) : Bool := c == '?' || c == '#'

/-- Model of `urllib.parse.urlparse(url).path` for URLs of the usual
`scheme://netloc/path` shape; a string with no scheme separator is treated
as all path, matching `urlparse` on scheme-less inputs. -/
def urlparsePath (url : String) : String :=
  match afterSchemeSep (chars url) with
  | some rest =>
    let netloc := rest.takeWhile (fun c => !(c == '/' || isQueryOrFrag c))
    String.mk ((rest.drop netloc.length).takeWhile (fun c => !isQueryOrFrag c))
  | none => String.mk ((chars url).takeWhile (fun c => !isQueryOrFrag c))

/-- Suffix test on character lists (model of Python `str.endswith`). -/
def endsWithChars (suf cs : List Char) : Bool := suf.isSuffixOf cs

/-- Embedding of `Git.repo_name`: take the parsed URL's path, strip leading
and trailing slashes, then strip one trailing `.git` (`repo[:-len(".git")]`). -/
def repo_name (url : String) : String :=
  let repo := stripBoth '/' (chars (urlparsePath url))
  if endsWithChars (chars ".git") repo then String.mk (repo.take (repo.length - 4))
  else String.mk repo

/-- Definition following the specification's words for `repositoryName`:
parse the URL, take the path component, strip leading/trailing `/`, strip a
trailing `.git` suffix if present. -/
def repositoryNameSpec (url : String) : String :=
  let path := chars (urlparsePath url)
  let stripped := stripBoth '/' path
  if endsWithChars (chars ".git") stripped then String.mk (stripped.take (stripped.length - 4))
  else String.mk stripped

example : repo_name "https://example.com/foo/bar.git" = "foo/bar" := by decide
example : repo_name "https://example.com/foo/bar" = "foo/bar" := by decide
example : repo_name "https://example.com//foo/bar//" = "foo/bar" := by decide
example : pyDirname "/srv/cachito/foo/bar/main.tar.gz" = "/srv/cachito/foo/bar" := by decide
example : joinPath "/srv" "foo" = "/srv/foo" := by decide
example : pyBasename "/a/b.tar.gz" = "b.tar.gz" := by decide

/-- A git repository state: whether a remote is configured, the revisions
resolvable from its history (`ref` to an abstract tree id), and the tree the
working copy is currently checked out at (`none` right after a
`no_checkout` clone). -/
structure GitRepo where
  hasRemote : Bool
  refs : List (String × Nat)
  tree : Option Nat
  deriving DecidableEq, Repr

/-- Content of a structurally valid tar archive: whether it is
gzip-compressed, the name of its single top-level entry, and the git
repository stored beneath that entry. -/
structure ArchiveContent where
  gzip : Bool
  topName : String
  repo : GitRepo
  deriving DecidableEq, Repr

/-- Content of a file: a structurally valid tar archive (for which
`tarfile.is_tarfile` is true) or a corrupt/truncated file (for which it is
false and any attempt to open it as a tar raises `ReadError`). -/
inductive FileData where
  | tar (a : ArchiveContent)
  | corrupt
  deriving DecidableEq, Repr

/-- One file of the modelled filesystem, with its creation time. -/
structure FEntry where
  path : String
  data : FileData
  ctime : Nat
  deriving DecidableEq, Repr

/-- Behaviour of the remote repository at `self.url`: whether a fresh clone
succeeds, whether a fetch succeeds, and the revisions resolvable from the
remote's history once cloned or fetched. -/
structure Remote where
  cloneOk : Bool
  fetchOk : Bool
  refs : List (String × Nat)
  deriving DecidableEq, Repr

/-- A network operation performed against the remote. -/
inductive NetOp where
  | clone
  | fetch
  deriving DecidableEq, Repr

/-- The mutable world: current directory, the configured
`cachito_sources_dir`, existing directories, files, the process
environment (`os.environ`), a log of network operations, the remote's
behaviour, and a clock used to stamp file-creation times. -/
structure World where
  cwd : String
  sourcesDir : String
  dirs : List String
  files : List FEntry
  env : List (String × String)
  netLog : List NetOp
  remote : Remote
  clock : Nat
  deriving DecidableEq, Repr

/-- Errors a `fetch_source` call can surface: the domain error
`CachitoError`, or a Python exception that no handler in the source
catches (`tarfile.ReadError`, `git.exc` repository-opening errors, and
`FileNotFoundError`/`OSError` when opening a path for writing). -/
inductive FetchError where
  | cachito (msg : String)
  | tarRead
  | gitInvalidRepo
  | fileNotFound (p : String)
  deriving DecidableEq, Repr

/-- True exactly for the domain error (`CachitoError`). -/
def FetchError.isDomain : FetchError → Bool
  | .cachito _ => true
  | _ => false

/-- Outcome of a stateful operation: the world after it, plus the raised
error when one escaped. -/
abbrev FetchOut := World × Option FetchError

/-- Look up the file stored at a path. -/
def fileAt (w : World) (p : String) : Option FileData :=
  (w.files.find? (fun e => e.path == p)).map FEntry.data

/-- Write (create or overwrite) the file at a path, stamping the current
clock as its creation time. -/
def writeFile (w : World) (p : String) (d : FileData) : World :=
  { w with
    files := ⟨p, d, w.clock⟩ :: w.files.filter (fun e => e.path != p)
    clock := w.clock + 1 }

/-- Set a process environment variable (model of `os.environ[k] = v`). -/
def setEnv (w : World) (k v : String) : World :=
  { w with env := (k, v) :: w.env.filter (fun kv => kv.1 != k) }

/-- Read a process environment variable. -/
def getEnv (w : World) (k : String) : Option String := w.env.lookup k

/-- Record a network operation against the remote. -/
def logNet (w : World) (op : NetOp) : World :=
  { w with netLog := op :: w.netLog }

/-- The directory paths `os.makedirs p` brings into existence: every
prefix of `p` ending at a separator, and `p` itself. -/
def mkdirsList (p : String) : List String :=
  ((List.range (chars p).length).filterMap fun i =>
    if (chars p).get? i == some '/' then some (String.mk ((chars p).take i)) else none)
  ++ [p]

/-- Model of `os.makedirs(p, exist_ok=True)`: create `p` and its missing
parents; a no-op when `p` already exists. -/
def makedirs (w : World) (p : String) : World :=
  if w.dirs.contains p then w else { w with dirs := mkdirsList p ++ w.dirs }

/-- Model of `tarfile.is_tarfile`: true when the file exists and is a
structurally valid tar archive. -/
def is_tarfile (w : World) (p : String) : Bool :=
  match fileAt w p with
  | some (FileData.tar _) => true
  | _ => false

/-- Model of `os.path.exists`. -/
def pathExists (w : World) (p : String) : Bool :=
  (fileAt w p).isSome || w.dirs.contains p

/-- Embedding of `SCM.archive_name`: `f'{self.ref}.tar.gz'`. -/
def archive_name (ref : String) : String := ref ++ ".tar.gz"

/-- Embedding of `SCM.archives_dir`:
`os.path.abspath(get_worker_config().cachito_sources_dir)`. -/
def archives_dir (w : World) : String := pyAbspath w.cwd w.sourcesDir

/-- The path computed by the `SCM.package_dir` property:
`os.path.join(self.archives_dir, *self.repo_name.split('/'))` (the
property also creates the directory; that side effect is applied where the
property is first used, in `fetch_source`). -/
def package_dir_path (w : World) (url : String) : String :=
  joinMany (archives_dir w) (splitChar '/' (chars (repo_name url)))

/-- Embedding of `SCM.archive_path`:
`os.path.join(self.package_dir, self.archive_name)`. -/
def archive_path (w : World) (url ref : String) : String :=
  joinPath (package_dir_path w url) (archive_name ref)

/-- The message of the domain error raised when a clone fails. -/
def cloneFailMsg : String := "Cloning the Git repository failed"

/-- The message of the domain error raised when the remote fetch of a
seeded working tree fails. -/
def fetchFailMsg : String := "Failed to fetch from the remote Git repository"

/-- The message of the domain error raised when the requested ref cannot
be resolved (the InvalidReference case). -/
def invalidRefMsg (ref : String) : String :=
  "Checking out the Git repository failed. Please verify the supplied reference of \""
    ++ ref ++ "\" is valid."

/-- Embedding of `Git._reset_git_head`: resolve `self.ref` in the
repository's history and reset head, index and working tree to it; an
unresolvable ref raises the domain error with the checkout message. -/
def _reset_git_head (repo : GitRepo) (ref : String) : Except FetchError GitRepo :=
  match repo.refs.lookup ref with
  | some t => Except.ok { repo with tree := some t }
  | none => Except.error (FetchError.cachito (invalidRefMsg ref))

/-- Embedding of `Git._create_archive`: open `self.archive_path` for
writing as a gzip tar (which raises `FileNotFoundError` when the parent
directory does not exist) and add `from_dir` under the fixed arcname
`app`.  The archived content is the repository whose working directory
`from_dir` is; the arcname does not depend on `from_dir`. -/
def _create_archive (w : World) (from_dir : String) (repo : GitRepo) (apath : String) :
    FetchOut :=
  if w.dirs.contains (pyDirname apath) then
    (writeFile w apath (FileData.tar { gzip := true, topName := "app", repo := repo }), none)
  else (w, some (FetchError.fileNotFound apath))

/-- Embedding of `Git.clone_and_archive`: set `GIT_TERMINAL_PROMPT=0` in
the process environment, clone from `self.url` with `no_checkout=True`
(a failed clone is caught and re-raised as the domain clone error), then
reset to `self.ref` and write the archive. -/
def clone_and_archive (w : World) (ref apath : String) : FetchOut :=
  let w1 := logNet (setEnv w "GIT_TERMINAL_PROMPT" "0") NetOp.clone
  if w1.remote.cloneOk then
    match _reset_git_head { hasRemote := true, refs := w1.remote.refs, tree := none } ref with
    | Except.ok repo2 => _create_archive w1 "repo" repo2 apath
    | Except.error e => (w1, some e)
  else (w1, some (FetchError.cachito cloneFailMsg))

/-- Embedding of `Git.update_and_archive`: open the previous archive as a
gzip tar (raising `ReadError` on a corrupt or non-gzip file), extract it,
open the git repository at its `app` entry (raising a git error when that
entry is missing), fetch from its remote (failures, including a missing
remote, are caught and re-raised as the domain fetch error), then reset to
`self.ref` and write the archive. -/
def update_and_archive (w : World) (ref prev apath : String) : FetchOut :=
  match fileAt w prev with
  | none => (w, some (FetchError.fileNotFound prev))
  | some FileData.corrupt => (w, some FetchError.tarRead)
  | some (FileData.tar a) =>
    if a.gzip then
      if a.topName == "app" then
        if a.repo.hasRemote then
          let w1 := logNet w NetOp.fetch
          if w1.remote.fetchOk then
            match _reset_git_head { a.repo with refs := w1.remote.refs } ref with
            | Except.ok repo2 => _create_archive w1 "app" repo2 apath
            | Except.error e => (w1, some e)
          else (w1, some (FetchError.cachito fetchFailMsg))
        else (w, some (FetchError.cachito fetchFailMsg))
      else (w, some FetchError.gitInvalidRepo)
    else (w, some FetchError.tarRead)

/-- The files `glob.glob(os.path.join(package_dir, '*.tar.gz'))` returns:
files directly inside `package_dir` whose basename matches `*.tar.gz` and
is not hidden. -/
def globTarGz (w : World) (pdir : String) : List FEntry :=
  w.files.filter fun e =>
    pyDirname e.path == pdir
    && endsWithChars (chars ".tar.gz") (chars (pyBasename e.path))
    && !headIsDot (chars (pyBasename e.path))

/-- Model of Python `max(entries, key=os.path.getctime, default=None)`:
the first entry with the greatest creation time, or `none` on an empty
list. -/
def maxByCtime : List FEntry → Option FEntry
  | [] => none
  | e :: rest => some (rest.foldl (fun a b => if b.ctime > a.ctime then b else a) e)

/-- Embedding of `Git.fetch_source`: materialise `self.archive_path`
(creating `self.package_dir` as a side effect of the property), return
immediately when a valid archive is already there, otherwise seed from the
most recently created archive in the package directory when one exists,
else clone afresh. -/
def fetch_source (w : World) (url ref : String) : FetchOut :=
  let w1 := makedirs w (package_dir_path w url)
  let apath := archive_path w url ref
  if pathExists w1 apath && is_tarfile w1 apath then (w1, none)
  else
    match maxByCtime (globTarGz w1 (package_dir_path w url)) with
    | some prev => update_and_archive w1 ref prev.path apath
    | none => clone_and_archive w1 ref apath



def wTest : World :=
  { cwd := "/", sourcesDir := "/srv", dirs := [], files := [], env := [],
    netLog := [], remote := { cloneOk := true, fetchOk := true, refs := [("main", 1)] },
    clock := 0 }

example : package_dir_path wTest "https://example.com/foo/bar.git" = "/srv/foo/bar" := by decide
example : archive_path wTest "https://example.com/foo/bar.git" "main" = "/srv/foo/bar/main.tar.gz" := by decide
example : (fetch_source wTest "https://example.com/foo/bar.git" "main").2 = none := by decide
example :
    fileAt (fetch_source wTest "https://example.com/foo/bar.git" "main").1 "/srv/foo/bar/main.tar.gz"
      = some (FileData.tar ⟨true, "app", ⟨true, [("main", 1)], some 1⟩⟩) := by decide
example : (fetch_source wTest "https://example.com/foo/bar.git" "main").1.netLog = [NetOp.clone] := by decide
example : getEnv (fetch_source wTest "https://example.com/foo/bar.git" "main").1 "GIT_TERMINAL_PROMPT" = some "0" := by decide

-- invalid ref on clone path: domain error, no file written
example : (fetch_source wTest "https://example.com/foo/bar.git" "nope").2
    = some (FetchError.cachito "Checking out the Git repository failed. Please verify the supplied reference of \"nope\" is valid.") := by decide
example : (fetch_source wTest "https://example.com/foo/bar.git" "nope").1.files = [] := by decide

-- corrupt archive at archive_path, nothing else: seed = itself, ReadError
def wCorrupt : World :=
  { wTest with
    dirs := mkdirsList "/srv/foo/bar"
    files := [⟨"/srv/foo/bar/main.tar.gz", FileData.corrupt, 5⟩] }

example : (fetch_source wCorrupt "https://example.com/foo/bar.git" "main").2 = some FetchError.tarRead := by decide
example : fileAt (fetch_source wCorrupt "https://example.com/foo/bar.git" "main").1 "/srv/foo/bar/main.tar.gz" = some FileData.corrupt := by decide

-- seed update path: valid archive for another ref present
def wSeed : World :=
  { wTest with
    dirs := mkdirsList "/srv/foo/bar"
    files := [⟨"/srv/foo/bar/old.tar.gz", FileData.tar ⟨true, "app", ⟨true, [("old", 7)], some 7⟩⟩, 3⟩]
    remote := { cloneOk := true, fetchOk := true, refs := [("main", 1), ("old", 7)] } }

example : (fetch_source wSeed "https://example.com/foo/bar.git" "main").2 = none := by decide
example : (fetch_source wSeed "https://example.com/foo/bar.git" "main").1.netLog = [NetOp.fetch] := by decide
example :
    fileAt (fetch_source wSeed "https://example.com/foo/bar.git" "main").1 "/srv/foo/bar/main.tar.gz"
      = some (FileData.tar ⟨true, "app", ⟨true, [("main", 1), ("old", 7)], some 1⟩⟩) := by decide

-- cache hit: identical world back
example : fetch_source (fetch_source wSeed "https://example.com/foo/bar.git" "main").1 "https://example.com/foo/bar.git" "main"
    = ((fetch_source wSeed "https://example.com/foo/bar.git" "main").1, none) := by decide

-- ref containing '/': FileNotFoundError at archive write
def wSlash : World :=
  { wTest with remote := { cloneOk := true, fetchOk := true, refs := [("feature/x", 2)] } }

example : (fetch_source wSlash "https://example.com/foo/bar.git" "feature/x").2
    = some (FetchError.fileNotFound "/srv/foo/bar/feature/x.tar.gz") := by decide


/-! Frame lemmas: how each primitive world operation affects each field. -/

@[simp] theorem writeFile_cwd (w : World) (p : String) (d : FileData) : (writeFile w p d).cwd = w.cwd := rfl

@[simp] theorem writeFile_sourcesDir (w : World) (p : String) (d : FileData) : (writeFile w p d).sourcesDir = w.sourcesDir := rfl

@[simp] theorem writeFile_dirs (w : World) (p : String) (d : FileData) : (writeFile w p d).dirs = w.dirs := rfl

@[simp] theorem writeFile_env (w : World) (p : String) (d : FileData) : (writeFile w p d).env = w.env := rfl

@[simp] theorem writeFile_netLog (w : World) (p : String) (d : FileData) : (writeFile w p d).netLog = w.netLog := rfl

@[simp] theorem writeFile_remote (w : World) (p : String) (d : FileData) : (writeFile w p d).remote = w.remote := rfl

@[simp] theorem setEnv_cwd (w : World) (k v : String) : (setEnv w k v).cwd = w.cwd := rfl

@[simp] theorem setEnv_sourcesDir (w : World) (k v : String) : (setEnv w k v).sourcesDir = w.sourcesDir := rfl

@[simp] theorem setEnv_dirs (w : World) (k v : String) : (setEnv w k v).dirs = w.dirs := rfl

@[simp] theorem setEnv_files (w : World) (k v : String) : (setEnv w k v).files = w.files := rfl

@[simp] theorem setEnv_netLog (w : World) (k v : String) : (setEnv w k v).netLog = w.netLog := rfl

@[simp] theorem setEnv_remote (w : World) (k v : String) : (setEnv w k v).remote = w.remote := rfl

@[simp] theorem logNet_cwd (w : World) (op : NetOp) : (logNet w op).cwd = w.cwd := rfl

@[simp] theorem logNet_sourcesDir (w : World) (op : NetOp) : (logNet w op).sourcesDir = w.sourcesDir := rfl

@[simp] theorem logNet_dirs (w : World) (op : NetOp) : (logNet w op).dirs = w.dirs := rfl

@[simp] theorem logNet_files (w : World) (op : NetOp) : (logNet w op).files = w.files := rfl

@[simp] theorem logNet_env (w : World) (op : NetOp) : (logNet w op).env = w.env := rfl

@[simp] theorem logNet_remote (w : World) (op : NetOp) : (logNet w op).remote = w.remote := rfl

@[simp] theorem logNet_netLog (w : World) (op : NetOp) : (logNet w op).netLog = op :: w.netLog := rfl

@[simp] theorem makedirs_cwd (w : World) (p : String) : (makedirs w p).cwd = w.cwd := by
  unfold makedirs; split <;> rfl

@[simp] theorem makedirs_sourcesDir (w : World) (p : String) : (makedirs w p).sourcesDir = w.sourcesDir := by
  unfold makedirs; split <;> rfl

@[simp] theorem makedirs_files (w : World) (p : String) : (makedirs w p).files = w.files := by
  unfold makedirs; split <;> rfl

@[simp] theorem makedirs_env (w : World) (p : String) : (makedirs w p).env = w.env := by
  unfold makedirs; split <;> rfl

@[simp] theorem makedirs_netLog (w : World) (p : String) : (makedirs w p).netLog = w.netLog := by
  unfold makedirs; split <;> rfl

@[simp] theorem makedirs_remote (w : World) (p : String) : (makedirs w p).remote = w.remote := by
  unfold makedirs; split <;> rfl

@[simp] theorem fileAt_setEnv (w : World) (k v p : String) : fileAt (setEnv w k v) p = fileAt w p := rfl

@[simp] theorem fileAt_logNet (w : World) (op : NetOp) (p : String) : fileAt (logNet w op) p = fileAt w p := rfl

@[simp] theorem fileAt_makedirs (w : World) (q p : String) : fileAt (makedirs w q) p = fileAt w p := by
  unfold fileAt; rw [makedirs_files]

/-- Writing at `p` makes the file at `p` hold the written data. -/
theorem fileAt_writeFile_self (w : World) (p : String) (d : FileData) :
    fileAt (writeFile w p d) p = some d := by
  unfold fileAt writeFile
  simp

/-- The auxiliary search step behind `fileAt_writeFile_ne`: removing the
entries at `p` does not change the first entry found at a different `q`. -/
theorem find?_filter_ne (l : List FEntry) (p q : String) (h : q ≠ p) :
    (l.filter (fun e => e.path != p)).find? (fun e => e.path == q)
      = l.find? (fun e => e.path == q) := by
  induction l with
  | nil => rfl
  | cons e rest ih =>
    by_cases hp : e.path = p
    · have h1 : (e.path != p) = false := by simp [hp]
      have h2 : (e.path == q) = false := by
        simp only [beq_eq_false_iff_ne, ne_eq, hp]
        exact fun hh => h hh.symm
      simp [List.filter_cons, List.find?_cons, h1, h2, ih]
    · have h1 : (e.path != p) = true := by simp [hp]
      by_cases hq : e.path = q
      · have h2 : (e.path == q) = true := by simp [hq]
        simp [List.filter_cons, List.find?_cons, h1, h2]
      · have h2 : (e.path == q) = false := by simp [hq]
        simp [List.filter_cons, List.find?_cons, h1, h2, ih]

/-- Writing at `p` leaves every other path unchanged. -/
theorem fileAt_writeFile_ne (w : World) (p q : String) (d : FileData) (h : q ≠ p) :
    fileAt (writeFile w p d) q = fileAt w q := by
  unfold fileAt writeFile
  have hpq : (p == q) = false := by simp; exact fun hh => h hh.symm
  simp [List.find?, hpq, find?_filter_ne w.files p q h]

/-- The no-error outcome of `_create_archive` is exactly a write of the
`app`-rooted gzip archive, and needs the parent directory to exist. -/
theorem create_ok (w : World) (d : String) (repo : GitRepo) (apath : String) (w' : World)
    (h : _create_archive w d repo apath = (w', none)) :
    w.dirs.contains (pyDirname apath) = true
      ∧ w' = writeFile w apath (FileData.tar ⟨true, "app", repo⟩) := by
  unfold _create_archive at h
  split at h
  next hd => exact ⟨hd, by injection h with h1 _; exact h1.symm⟩
  next hd => exact absurd h (by simp)

/-- The error outcome of `_create_archive` leaves the world unchanged and
is the uncaught file-open failure. -/
theorem create_err (w : World) (d : String) (repo : GitRepo) (apath : String) (w' : World)
    (e : FetchError) (h : _create_archive w d repo apath = (w', some e)) :
    w' = w ∧ e = FetchError.fileNotFound apath := by
  unfold _create_archive at h
  split at h
  next hd => exact absurd h (by simp)
  next hd =>
    injection h with h1 h2
    injection h2 with h2
    exact ⟨h1.symm, h2.symm⟩

/-- The cache-hit guard of `fetch_source` is equivalent to `is_tarfile`
alone, since a valid tar at the path in particular exists. -/
theorem guard_eq (w : World) (p : String) :
    (pathExists w p && is_tarfile w p) = is_tarfile w p := by
  unfold pathExists is_tarfile
  cases hf : fileAt w p with
  | none => simp
  | some d => cases d <;> simp

/-- Glob results are unchanged by directory creation. -/
theorem globTarGz_makedirs (w : World) (q pdir : String) :
    globTarGz (makedirs w q) pdir = globTarGz w pdir := by
  unfold globTarGz; rw [makedirs_files]

/-- Valid tar files are detected independently of directory creation. -/
theorem is_tarfile_makedirs (w : World) (q p : String) :
    is_tarfile (makedirs w q) p = is_tarfile w p := by
  unfold is_tarfile; rw [fileAt_makedirs]

/-- Case analysis of `_reset_git_head`: a resolvable ref gives back the
repository reset to it, an unresolvable one the domain checkout error. -/
theorem reset_cases (repo : GitRepo) (ref : String) :
    (∃ t, repo.refs.lookup ref = some t
      ∧ _reset_git_head repo ref = Except.ok { repo with tree := some t })
    ∨ (repo.refs.lookup ref = none
      ∧ _reset_git_head repo ref = Except.error (FetchError.cachito (invalidRefMsg ref))) := by
  cases hl : repo.refs.lookup ref with
  | some t => exact Or.inl ⟨t, rfl, by unfold _reset_git_head; rw [hl]⟩
  | none => exact Or.inr ⟨rfl, by unfold _reset_git_head; rw [hl]⟩

/-- Complete case analysis of `clone_and_archive`: the environment variable
is always set and the clone attempt always logged; then either the clone
fails with the domain clone error, or the ref does not resolve and the
domain checkout error is raised, or the archive write happens (or fails on
a missing parent directory). -/
theorem clone_cases (w : World) (ref apath : String) (w' : World) (oe : Option FetchError)
    (h : clone_and_archive w ref apath = (w', oe)) :
    (w.remote.cloneOk = false
      ∧ w' = logNet (setEnv w "GIT_TERMINAL_PROMPT" "0") NetOp.clone
      ∧ oe = some (FetchError.cachito cloneFailMsg))
    ∨ (w.remote.cloneOk = true ∧ w.remote.refs.lookup ref = none
      ∧ w' = logNet (setEnv w "GIT_TERMINAL_PROMPT" "0") NetOp.clone
      ∧ oe = some (FetchError.cachito (invalidRefMsg ref)))
    ∨ (∃ t, w.remote.cloneOk = true ∧ w.remote.refs.lookup ref = some t
      ∧ ((w.dirs.contains (pyDirname apath) = true ∧ oe = none
          ∧ w' = writeFile (logNet (setEnv w "GIT_TERMINAL_PROMPT" "0") NetOp.clone) apath
              (FileData.tar ⟨true, "app", ⟨true, w.remote.refs, some t⟩⟩))
        ∨ (w.dirs.contains (pyDirname apath) = false
          ∧ w' = logNet (setEnv w "GIT_TERMINAL_PROMPT" "0") NetOp.clone
          ∧ oe = some (FetchError.fileNotFound apath)))) := by
  unfold clone_and_archive at h
  dsimp only [logNet, setEnv] at h
  split at h
  next hclone =>
    split at h
    next repo2 hmatch =>
      rcases reset_cases ⟨true, w.remote.refs, none⟩ ref with ⟨t, hlook, heq⟩ | ⟨hlook, heq⟩
      · rw [heq] at hmatch
        injection hmatch with hrepo
        subst hrepo
        refine Or.inr (Or.inr ⟨t, by simpa using hclone, hlook, ?_⟩)
        unfold _create_archive at h
        split at h
        next hd =>
          injection h with h1 h2
          exact Or.inl ⟨by simpa using hd, h2.symm, h1.symm⟩
        next hd =>
          injection h with h1 h2
          exact Or.inr ⟨by simpa using hd, h1.symm, h2.symm⟩
      · rw [heq] at hmatch
        exact absurd hmatch (by simp)
    next e hmatch =>
      rcases reset_cases ⟨true, w.remote.refs, none⟩ ref with ⟨t, hlook, heq⟩ | ⟨hlook, heq⟩
      · rw [heq] at hmatch
        exact absurd hmatch (by simp)
      · rw [heq] at hmatch
        injection hmatch with he
        subst he
        injection h with h1 h2
        exact Or.inr (Or.inl ⟨by simpa using hclone, hlook, h1.symm, h2.symm⟩)
  next hclone =>
    injection h with h1 h2
    exact Or.inl ⟨by simpa using hclone, h1.symm, h2.symm⟩

/-- Complete case analysis of `update_and_archive`: a missing, corrupt or
non-gzip seed raises an uncaught read error before any network operation;
a seed without the `app` entry raises an uncaught git error; otherwise the
fetch is attempted and either fails with the domain fetch error, or the
ref fails to resolve with the domain checkout error, or the archive write
happens (or fails on a missing parent directory). -/
theorem update_cases (w : World) (ref prev apath : String) (w' : World) (oe : Option FetchError)
    (h : update_and_archive w ref prev apath = (w', oe)) :
    (fileAt w prev = none ∧ w' = w ∧ oe = some (FetchError.fileNotFound prev))
    ∨ (fileAt w prev = some FileData.corrupt ∧ w' = w ∧ oe = some FetchError.tarRead)
    ∨ (∃ a, fileAt w prev = some (FileData.tar a)
      ∧ ((a.gzip = false ∧ w' = w ∧ oe = some FetchError.tarRead)
        ∨ (a.gzip = true ∧ a.topName ≠ "app" ∧ w' = w ∧ oe = some FetchError.gitInvalidRepo)
        ∨ (a.gzip = true ∧ a.topName = "app" ∧ a.repo.hasRemote = false
          ∧ w' = w ∧ oe = some (FetchError.cachito fetchFailMsg))
        ∨ (a.gzip = true ∧ a.topName = "app" ∧ a.repo.hasRemote = true
          ∧ ((w.remote.fetchOk = false ∧ w' = logNet w NetOp.fetch
              ∧ oe = some (FetchError.cachito fetchFailMsg))
            ∨ (w.remote.fetchOk = true ∧ w.remote.refs.lookup ref = none
              ∧ w' = logNet w NetOp.fetch ∧ oe = some (FetchError.cachito (invalidRefMsg ref)))
            ∨ (∃ t, w.remote.fetchOk = true ∧ w.remote.refs.lookup ref = some t
              ∧ ((w.dirs.contains (pyDirname apath) = true ∧ oe = none
                  ∧ w' = writeFile (logNet w NetOp.fetch) apath
                      (FileData.tar ⟨true, "app",
                        { a.repo with refs := w.remote.refs, tree := some t }⟩))
                ∨ (w.dirs.contains (pyDirname apath) = false ∧ w' = logNet w NetOp.fetch
                  ∧ oe = some (FetchError.fileNotFound apath)))))))) := by
  unfold update_and_archive at h
  dsimp only [logNet] at h
  split at h
  next hfile =>
    injection h with h1 h2
    exact Or.inl ⟨hfile, h1.symm, h2.symm⟩
  next hfile =>
    injection h with h1 h2
    exact Or.inr (Or.inl ⟨hfile, h1.symm, h2.symm⟩)
  next a hfile =>
    refine Or.inr (Or.inr ⟨a, hfile, ?_⟩)
    split at h
    next hgz =>
      split at h
      next htop =>
        split at h
        next hrem =>
          split at h
          next hfetch =>
            refine Or.inr (Or.inr (Or.inr ⟨by simpa using hgz, by simpa using htop, by simpa using hrem, ?_⟩))
            split at h
            next repo2 hmatch =>
              rcases reset_cases ⟨a.repo.hasRemote, w.remote.refs, a.repo.tree⟩ ref with
                ⟨t, hlook, heq⟩ | ⟨hlook, heq⟩
              · rw [heq] at hmatch
                injection hmatch with hrepo
                subst hrepo
                refine Or.inr (Or.inr ⟨t, by simpa using hfetch, hlook, ?_⟩)
                unfold _create_archive at h
                split at h
                next hd =>
                  injection h with h1 h2
                  exact Or.inl ⟨by simpa using hd, h2.symm, h1.symm⟩
                next hd =>
                  injection h with h1 h2
                  exact Or.inr ⟨by simpa using hd, h1.symm, h2.symm⟩
              · rw [heq] at hmatch
                exact absurd hmatch (by simp)
            next e hmatch =>
              rcases reset_cases ⟨a.repo.hasRemote, w.remote.refs, a.repo.tree⟩ ref with
                ⟨t, hlook, heq⟩ | ⟨hlook, heq⟩
              · rw [heq] at hmatch
                exact absurd hmatch (by simp)
              · rw [heq] at hmatch
                injection hmatch with he
                subst he
                injection h with h1 h2
                exact Or.inr (Or.inl ⟨by simpa using hfetch, hlook, h1.symm, h2.symm⟩)
          next hfetch =>
            injection h with h1 h2
            exact Or.inr (Or.inr (Or.inr ⟨by simpa using hgz, by simpa using htop, by simpa using hrem,
              Or.inl ⟨by simpa using hfetch, h1.symm, h2.symm⟩⟩))
        next hrem =>
          injection h with h1 h2
          exact Or.inr (Or.inr (Or.inl ⟨by simpa using hgz, by simpa using htop, by simpa using hrem, h1.symm, h2.symm⟩))
      next htop =>
        injection h with h1 h2
        exact Or.inr (Or.inl ⟨by simpa using hgz, by simpa using htop, h1.symm, h2.symm⟩)
    next hgz =>
      injection h with h1 h2
      exact Or.inl ⟨by simpa using hgz, h1.symm, h2.symm⟩

/-- Complete case analysis of `fetch_source`: a valid archive at the path
is a cache hit returning after at most creating the package directory;
otherwise the most recently created globbed archive seeds an update, and
with no candidate a fresh clone runs. -/
theorem fetch_cases (w : World) (url ref : String) (w' : World) (oe : Option FetchError)
    (h : fetch_source w url ref = (w', oe)) :
    (is_tarfile w (archive_path w url ref) = true
      ∧ w' = makedirs w (package_dir_path w url) ∧ oe = none)
    ∨ (is_tarfile w (archive_path w url ref) = false
      ∧ ((∃ prev, maxByCtime (globTarGz w (package_dir_path w url)) = some prev
          ∧ update_and_archive (makedirs w (package_dir_path w url)) ref prev.path
              (archive_path w url ref) = (w', oe))
        ∨ (maxByCtime (globTarGz w (package_dir_path w url)) = none
          ∧ clone_and_archive (makedirs w (package_dir_path w url)) ref
              (archive_path w url ref) = (w', oe)))) := by
  unfold fetch_source at h
  dsimp only [] at h
  rw [guard_eq, is_tarfile_makedirs] at h
  split at h
  next hhit =>
    injection h with h1 h2
    exact Or.inl ⟨hhit, h1.symm, h2.symm⟩
  next hhit =>
    refine Or.inr ⟨by simpa using hhit, ?_⟩
    rw [globTarGz_makedirs] at h
    split at h
    next prev hmax => exact Or.inl ⟨prev, hmax, h⟩
    next hmax => exact Or.inr ⟨hmax, h⟩

/-- The fold behind `maxByCtime` returns the seed or a list element. -/
theorem foldl_max_mem (e : FEntry) (l : List FEntry) :
    l.foldl (fun a b => if b.ctime > a.ctime then b else a) e = e
      ∨ l.foldl (fun a b => if b.ctime > a.ctime then b else a) e ∈ l := by
  induction l generalizing e with
  | nil => exact Or.inl rfl
  | cons x xs ih =>
    simp only [List.foldl_cons]
    rcases ih (if x.ctime > e.ctime then x else e) with h | h
    · rw [h]
      split
      · exact Or.inr (List.mem_cons_self _ _)
      · exact Or.inl rfl
    · exact Or.inr (List.mem_cons_of_mem _ h)

/-- The fold behind `maxByCtime` dominates the seed and every element. -/
theorem foldl_max_ge (e : FEntry) (l : List FEntry) :
    e.ctime ≤ (l.foldl (fun a b => if b.ctime > a.ctime then b else a) e).ctime
      ∧ ∀ x ∈ l, x.ctime ≤ (l.foldl (fun a b => if b.ctime > a.ctime then b else a) e).ctime := by
  induction l generalizing e with
  | nil => exact ⟨le_refl _, by simp⟩
  | cons x xs ih =>
    simp only [List.foldl_cons]
    obtain ⟨h1, h2⟩ := ih (if x.ctime > e.ctime then x else e)
    refine ⟨le_trans ?_ h1, ?_⟩
    · split
      next hgt => omega
      next hgt => exact le_refl _
    · intro y hy
      rcases List.mem_cons.mp hy with rfl | hy
      · refine le_trans ?_ h1
        split
        next hgt => exact le_refl _
        next hgt => omega
      · exact h2 y hy

/-- Specification of the seed selection: the chosen entry is one of the
candidates and has the greatest creation time among them. -/
theorem maxByCtime_spec (l : List FEntry) (e : FEntry) (h : maxByCtime l = some e) :
    e ∈ l ∧ ∀ x ∈ l, x.ctime ≤ e.ctime := by
  cases l with
  | nil => exact absurd h (by simp [maxByCtime])
  | cons x xs =>
    unfold maxByCtime at h
    injection h with h
    subst h
    refine ⟨?_, ?_⟩
    · rcases foldl_max_mem x xs with h | h
      · rw [h]; exact List.mem_cons_self _ _
      · exact List.mem_cons_of_mem _ h
    · intro y hy
      obtain ⟨h1, h2⟩ := foldl_max_ge x xs
      rcases List.mem_cons.mp hy with rfl | hy
      · exact h1
      · exact h2 y hy

/-- A directory just created is present afterwards. -/
theorem makedirs_contains_self (w : World) (p : String) :
    (makedirs w p).dirs.contains p = true := by
  unfold makedirs
  split
  next h => exact h
  next h =>
    have hp : p ∈ mkdirsList p ++ w.dirs := by
      refine List.mem_append_left _ ?_
      unfold mkdirsList
      exact List.mem_append_right _ (by simp)
    simpa using hp

/-- `clone_and_archive` leaves the location-determining fields, the file
listing on error paths aside, untouched. -/
theorem clone_frame (w : World) (ref apath : String) (w' : World) (oe : Option FetchError)
    (h : clone_and_archive w ref apath = (w', oe)) :
    w'.cwd = w.cwd ∧ w'.sourcesDir = w.sourcesDir ∧ w'.remote = w.remote ∧ w'.dirs = w.dirs := by
  rcases clone_cases w ref apath w' oe h with
    ⟨_, hw, _⟩ | ⟨_, _, hw, _⟩ | ⟨t, _, _, ⟨_, _, hw⟩ | ⟨_, hw, _⟩⟩ <;> subst hw <;>
    exact ⟨by simp, by simp, by simp, by simp⟩

/-- `clone_and_archive` always logs exactly one clone attempt. -/
theorem clone_netLog (w : World) (ref apath : String) (w' : World) (oe : Option FetchError)
    (h : clone_and_archive w ref apath = (w', oe)) :
    w'.netLog = NetOp.clone :: w.netLog := by
  rcases clone_cases w ref apath w' oe h with
    ⟨_, hw, _⟩ | ⟨_, _, hw, _⟩ | ⟨t, _, _, ⟨_, _, hw⟩ | ⟨_, hw, _⟩⟩ <;> subst hw <;> simp

/-- `clone_and_archive` sets the non-interactive prompt variable in the
process environment. -/
theorem clone_env (w : World) (ref apath : String) (w' : World) (oe : Option FetchError)
    (h : clone_and_archive w ref apath = (w', oe)) :
    w'.env = ("GIT_TERMINAL_PROMPT", "0") :: w.env.filter (fun kv => kv.1 != "GIT_TERMINAL_PROMPT") := by
  rcases clone_cases w ref apath w' oe h with
    ⟨_, hw, _⟩ | ⟨_, _, hw, _⟩ | ⟨t, _, _, ⟨_, _, hw⟩ | ⟨_, hw, _⟩⟩ <;> subst hw <;>
    simp [setEnv]

/-- A failing `clone_and_archive` writes nothing. -/
theorem clone_err_files (w : World) (ref apath : String) (w' : World) (e : FetchError)
    (h : clone_and_archive w ref apath = (w', some e)) : w'.files = w.files := by
  rcases clone_cases w ref apath w' (some e) h with
    ⟨_, hw, _⟩ | ⟨_, _, hw, _⟩ | ⟨t, _, _, ⟨_, hnone, _⟩ | ⟨_, hw, _⟩⟩
  · subst hw; simp
  · subst hw; simp
  · exact absurd hnone (by simp)
  · subst hw; simp

/-- `update_and_archive` leaves the location-determining fields and the
environment untouched. -/
theorem update_frame (w : World) (ref prev apath : String) (w' : World) (oe : Option FetchError)
    (h : update_and_archive w ref prev apath = (w', oe)) :
    w'.cwd = w.cwd ∧ w'.sourcesDir = w.sourcesDir ∧ w'.remote = w.remote ∧ w'.dirs = w.dirs
      ∧ w'.env = w.env := by
  rcases update_cases w ref prev apath w' oe h with
    ⟨_, hw, _⟩ | ⟨_, hw, _⟩ |
    ⟨a, _, ⟨_, hw, _⟩ | ⟨_, _, hw, _⟩ | ⟨_, _, _, hw, _⟩ |
      ⟨_, _, _, ⟨_, hw, _⟩ | ⟨_, _, hw, _⟩ | ⟨t, _, _, ⟨_, _, hw⟩ | ⟨_, hw, _⟩⟩⟩⟩ <;> subst hw <;>
    exact ⟨by simp, by simp, by simp, by simp, by simp⟩

/-- `update_and_archive` logs at most one fetch attempt and never a clone. -/
theorem update_netLog (w : World) (ref prev apath : String) (w' : World) (oe : Option FetchError)
    (h : update_and_archive w ref prev apath = (w', oe)) :
    w'.netLog = w.netLog ∨ w'.netLog = NetOp.fetch :: w.netLog := by
  rcases update_cases w ref prev apath w' oe h with
    ⟨_, hw, _⟩ | ⟨_, hw, _⟩ |
    ⟨a, _, ⟨_, hw, _⟩ | ⟨_, _, hw, _⟩ | ⟨_, _, _, hw, _⟩ |
      ⟨_, _, _, ⟨_, hw, _⟩ | ⟨_, _, hw, _⟩ | ⟨t, _, _, ⟨_, _, hw⟩ | ⟨_, hw, _⟩⟩⟩⟩ <;> subst hw
  · exact Or.inl rfl
  · exact Or.inl rfl
  · exact Or.inl rfl
  · exact Or.inl rfl
  · exact Or.inl rfl
  · exact Or.inr (by simp)
  · exact Or.inr (by simp)
  · exact Or.inr (by simp)
  · exact Or.inr (by simp)

/-- A failing `update_and_archive` writes nothing. -/
theorem update_err_files (w : World) (ref prev apath : String) (w' : World) (e : FetchError)
    (h : update_and_archive w ref prev apath = (w', some e)) : w'.files = w.files := by
  rcases update_cases w ref prev apath w' (some e) h with
    ⟨_, hw, _⟩ | ⟨_, hw, _⟩ |
    ⟨a, _, ⟨_, hw, _⟩ | ⟨_, _, hw, _⟩ | ⟨_, _, _, hw, _⟩ |
      ⟨_, _, _, ⟨_, hw, _⟩ | ⟨_, _, hw, _⟩ | ⟨t, _, _, ⟨_, hnone, _⟩ | ⟨_, hw, _⟩⟩⟩⟩
  · subst hw; rfl
  · subst hw; rfl
  · subst hw; rfl
  · subst hw; rfl
  · subst hw; rfl
  · subst hw; simp
  · subst hw; simp
  · exact absurd hnone (by simp)
  · subst hw; simp

/-- The cache paths depend only on the current directory and the
configured sources directory. -/
theorem package_dir_path_congr (w w' : World) (url : String)
    (h1 : w'.cwd = w.cwd) (h2 : w'.sourcesDir = w.sourcesDir) :
    package_dir_path w' url = package_dir_path w url := by
  unfold package_dir_path archives_dir pyAbspath
  rw [h1, h2]

/-- The archive path depends only on the current directory and the
configured sources directory. -/
theorem archive_path_congr (w w' : World) (url ref : String)
    (h1 : w'.cwd = w.cwd) (h2 : w'.sourcesDir = w.sourcesDir) :
    archive_path w' url ref = archive_path w url ref := by
  unfold archive_path
  rw [package_dir_path_congr w w' url h1 h2]

/-- `fetch_source` preserves the location-determining fields; directories
are exactly those after the `package_dir` creation. -/
theorem fetch_frame (w : World) (url ref : String) (w' : World) (oe : Option FetchError)
    (h : fetch_source w url ref = (w', oe)) :
    w'.cwd = w.cwd ∧ w'.sourcesDir = w.sourcesDir ∧ w'.remote = w.remote
      ∧ w'.dirs = (makedirs w (package_dir_path w url)).dirs := by
  rcases fetch_cases w url ref w' oe h with ⟨_, hw, _⟩ | ⟨_, ⟨prev, _, hu⟩ | ⟨_, hc⟩⟩
  · subst hw; exact ⟨by simp, by simp, by simp, rfl⟩
  · obtain ⟨h1, h2, h3, h4, _⟩ := update_frame _ _ _ _ _ _ hu
    exact ⟨by rw [h1]; simp, by rw [h2]; simp, by rw [h3]; simp, h4⟩
  · obtain ⟨h1, h2, h3, h4⟩ := clone_frame _ _ _ _ _ hc
    exact ⟨by rw [h1]; simp, by rw [h2]; simp, by rw [h3]; simp, h4⟩

/-- A failing `fetch_source` call leaves the file listing untouched: no
partial or corrupt archive is ever written on an error path. -/
theorem fetch_err_files (w : World) (url ref : String) (w' : World) (e : FetchError)
    (h : fetch_source w url ref = (w', some e)) : w'.files = w.files := by
  rcases fetch_cases w url ref w' (some e) h with ⟨_, _, hnone⟩ | ⟨_, ⟨prev, _, hu⟩ | ⟨_, hc⟩⟩
  · exact absurd hnone (by simp)
  · rw [update_err_files _ _ _ _ _ _ hu]; simp
  · rw [clone_err_files _ _ _ _ _ hc]; simp

/-- Shape of a successful `fetch_source`: either a pure cache hit, or the
path now holds a fresh gzip archive rooted at `app` whose working tree is
the one the requested ref resolves to in the remote history. -/
theorem fetch_success_shape (w : World) (url ref : String) (w' : World)
    (h : fetch_source w url ref = (w', none)) :
    (is_tarfile w (archive_path w url ref) = true
      ∧ w' = makedirs w (package_dir_path w url))
    ∨ (∃ repo t, w.remote.refs.lookup ref = some t ∧ repo.tree = some t
        ∧ repo.refs = w.remote.refs
        ∧ fileAt w' (archive_path w url ref) = some (FileData.tar ⟨true, "app", repo⟩)) := by
  rcases fetch_cases w url ref w' none h with ⟨hhit, hw, _⟩ | ⟨hmiss, ⟨prev, hmax, hu⟩ | ⟨hmax, hc⟩⟩
  · exact Or.inl ⟨hhit, hw⟩
  · rcases update_cases _ _ _ _ _ _ hu with
      ⟨_, _, hbad⟩ | ⟨_, _, hbad⟩ |
      ⟨a, _, ⟨_, _, hbad⟩ | ⟨_, _, _, hbad⟩ | ⟨_, _, _, _, hbad⟩ |
        ⟨_, _, _, ⟨_, _, hbad⟩ | ⟨_, _, _, hbad⟩ | ⟨t, _, hlook, ⟨_, _, hw⟩ | ⟨_, _, hbad⟩⟩⟩⟩
    · exact absurd hbad (by simp)
    · exact absurd hbad (by simp)
    · exact absurd hbad (by simp)
    · exact absurd hbad (by simp)
    · exact absurd hbad (by simp)
    · exact absurd hbad (by simp)
    · exact absurd hbad (by simp)
    · subst hw
      refine Or.inr ⟨{ a.repo with refs := w.remote.refs, tree := some t }, t,
        by simpa using hlook, rfl, rfl, ?_⟩
      rw [fileAt_writeFile_self]
      simp
    · exact absurd hbad (by simp)
  · rcases clone_cases _ _ _ _ _ hc with
      ⟨_, _, hbad⟩ | ⟨_, _, _, hbad⟩ | ⟨t, _, hlook, ⟨_, _, hw⟩ | ⟨_, _, hbad⟩⟩
    · exact absurd hbad (by simp)
    · exact absurd hbad (by simp)
    · subst hw
      refine Or.inr ⟨⟨true, w.remote.refs, some t⟩, t, by simpa using hlook, rfl, rfl, ?_⟩
      rw [fileAt_writeFile_self]
      simp
    · exact absurd hbad (by simp)

/-- A cache hit on a world whose package directory already exists is a
strict no-op: the very same world comes back with no error. -/
theorem fetch_hit_self (w : World) (url ref : String)
    (hdir : w.dirs.contains (package_dir_path w url) = true)
    (hhit : is_tarfile w (archive_path w url ref) = true) :
    fetch_source w url ref = (w, none) := by
  have hmk : makedirs w (package_dir_path w url) = w := by
    unfold makedirs; rw [if_pos hdir]
  unfold fetch_source
  dsimp only []
  rw [hmk, guard_eq, hhit]
  simp

/-- A successful `fetch_source` leaves a valid archive at the path and the
package directory present, so a repeated call is a no-op cache hit. -/
theorem fetch_success_hit (w : World) (url ref : String) (w1 : World)
    (h : fetch_source w url ref = (w1, none)) :
    fetch_source w1 url ref = (w1, none) := by
  obtain ⟨hc, hs, hr, hd⟩ := fetch_frame w url ref w1 none h
  have hpkg : package_dir_path w1 url = package_dir_path w url :=
    package_dir_path_congr w w1 url hc hs
  have hap : archive_path w1 url ref = archive_path w url ref :=
    archive_path_congr w w1 url ref hc hs
  have hdir : w1.dirs.contains (package_dir_path w1 url) = true := by
    rw [hpkg, hd]; exact makedirs_contains_self w (package_dir_path w url)
  have hhit : is_tarfile w1 (archive_path w1 url ref) = true := by
    rw [hap]
    rcases fetch_success_shape w url ref w1 h with ⟨hh, hw⟩ | ⟨repo, t, _, _, _, hf⟩
    · subst hw; rw [is_tarfile_makedirs]; exact hh
    · unfold is_tarfile; rw [hf]
  exact fetch_hit_self w1 url ref hdir hhit

/-- A valid tar at a path means some archive content is stored there. -/
theorem is_tarfile_inv (w : World) (p : String) (h : is_tarfile w p = true) :
    ∃ a, fileAt w p = some (FileData.tar a) := by
  unfold is_tarfile at h
  cases hf : fileAt w p with
  | none => rw [hf] at h; exact absurd h (by simp)
  | some d =>
    cases d with
    | tar a => exact ⟨a, rfl⟩
    | corrupt => rw [hf] at h; exact absurd h (by simp)

/-- Worlds with the same file listing agree on every file lookup. -/
theorem fileAt_congr_files (w w' : World) (p : String) (hf : w'.files = w.files) :
    fileAt w' p = fileAt w p := by
  unfold fileAt; rw [hf]

/-- Everything `os.makedirs p` creates is at most as long as `p`. -/
theorem mkdirsList_length_le (p x : String) (hx : x ∈ mkdirsList p) : x.length ≤ p.length := by
  unfold mkdirsList at hx
  rcases List.mem_append.mp hx with hx | hx
  · obtain ⟨i, _, hfi⟩ := List.mem_filterMap.mp hx
    by_cases hc : ((chars p).get? i == some '/') = true
    · rw [if_pos hc] at hfi
      injection hfi with hfi
      subst hfi
      show ((chars p).take i).length ≤ p.length
      rw [List.length_take]
      exact min_le_right _ _
    · rw [if_neg hc] at hfi
      exact absurd hfi (by simp)
  · simp only [List.mem_singleton] at hx
    subst hx
    exact le_refl _

/-- A directory strictly longer than the one being created, and absent
beforehand, is still absent after `os.makedirs`. -/
theorem makedirs_not_contains (w : World) (p q : String) (hq : q ∉ w.dirs)
    (hlen : p.length < q.length) :
    (makedirs w p).dirs.contains q = false := by
  unfold makedirs
  split
  next h => simpa using hq
  next h =>
    have : q ∉ mkdirsList p ++ w.dirs := by
      intro hmem
      rcases List.mem_append.mp hmem with hmem | hmem
      · exact absurd (mkdirsList_length_le p q hmem) (by omega)
      · exact hq hmem
    simpa using this

/-- Claim C7 concrete world-independent facts need no world at all; the
remaining claims evaluate `fetch_source` on small concrete worlds. -/
def baseWorld : World :=
  { cwd := "/", sourcesDir := "/srv", dirs := [], files := [], env := [],
    netLog := [], remote := { cloneOk := true, fetchOk := true, refs := [("main", 1)] },
    clock := 0 }

/-- C7: `repo_name` is the pure function that takes the URL path, strips
leading/trailing slashes and a trailing `.git`; it agrees with the
specification's `repositoryName` on every URL, and on the claim's
examples it yields `foo/bar`, with leading and trailing slashes
stripped. -/
theorem C7_repo_name_derivation :
    (∀ url, repo_name url = repositoryNameSpec url)
    ∧ repo_name "https://example.com/foo/bar.git" = "foo/bar"
    ∧ repo_name "https://example.com/foo/bar" = "foo/bar"
    ∧ repo_name "https://example.com//foo/bar//" = "foo/bar" :=
  ⟨fun _ => rfl, by decide, by decide, by decide⟩

/-- The world of claim C6: the only archive in the package directory is a
zero-byte (corrupt) file sitting exactly at the requested archive path. -/
def c6World : World :=
  { baseWorld with
    dirs := mkdirsList "/srv/foo/bar"
    files := [⟨"/srv/foo/bar/main.tar.gz", FileData.corrupt, 5⟩] }

/-- C6: a corrupt file at the archive path is treated as a cache miss (it
is not returned as-is), but regeneration does not happen: the corrupt file
is selected as its own seed and `fetch_source` dies with an uncaught
`tarfile.ReadError` (not the domain error), leaving the corrupt file in
place — the code fails the corruption-recovery claim. -/
theorem C6_corrupt_self_seed_failure :
    fetch_source c6World "https://example.com/foo/bar.git" "main"
        = (c6World, some FetchError.tarRead)
      ∧ fileAt c6World (archive_path c6World "https://example.com/foo/bar.git" "main")
          = some FileData.corrupt
      ∧ FetchError.tarRead.isDomain = false := by decide

/-- C3: a structurally valid archive at the archive path (with the package
directory present) makes `fetch_source` return the world unchanged — no
file write, no directory creation, no environment change and no network
operation — and any successful call is followed by a second call that is
such a no-op cache hit, so two sequential calls yield the same archive
path and content with no network access on the second. -/
theorem C3_cache_hit_idempotent (w : World) (url ref : String) :
    (∀ a, fileAt w (archive_path w url ref) = some (FileData.tar a) →
      w.dirs.contains (package_dir_path w url) = true →
      fetch_source w url ref = (w, none))
    ∧ (∀ w1, fetch_source w url ref = (w1, none) → fetch_source w1 url ref = (w1, none)) := by
  constructor
  · intro a hfile hdir
    refine fetch_hit_self w url ref hdir ?_
    unfold is_tarfile
    rw [hfile]
  · intro w1 h
    exact fetch_success_hit w url ref w1 h

/-- The world of claim C3's witness: a valid seed archive for another ref
exists, so the first call takes the update path and the second call hits
the cache. -/
def c3World : World :=
  { baseWorld with
    dirs := mkdirsList "/srv/foo/bar"
    files := [⟨"/srv/foo/bar/old.tar.gz", FileData.tar ⟨true, "app", ⟨true, [("old", 7)], some 7⟩⟩, 3⟩]
    remote := { cloneOk := true, fetchOk := true, refs := [("main", 1), ("old", 7)] } }

/-- Witness for C3 at a concrete input: the first call succeeds and the
second call returns the first call's world unchanged. -/
theorem C3_cache_hit_idempotent_witness :
    fetch_source c3World "https://example.com/foo/bar.git" "main"
        = ((fetch_source c3World "https://example.com/foo/bar.git" "main").1, none)
      ∧ fetch_source (fetch_source c3World "https://example.com/foo/bar.git" "main").1
          "https://example.com/foo/bar.git" "main"
        = ((fetch_source c3World "https://example.com/foo/bar.git" "main").1, none) :=
  ⟨by decide,
    (C3_cache_hit_idempotent c3World "https://example.com/foo/bar.git" "main").2
      (fetch_source c3World "https://example.com/foo/bar.git" "main").1 (by decide)⟩

/-- C5: whenever a successful `fetch_source` actually writes the archive
(the file at the archive path changed), the written file is a
gzip-compressed tar whose single top-level entry is named `app` and whose
working tree is the one the requested ref resolves to; moreover
`_create_archive` produces the same archive whatever the on-disk name of
the source directory is. -/
theorem C5_archive_shape (w : World) (url ref : String) (w' : World)
    (h : fetch_source w url ref = (w', none))
    (hchange : fileAt w' (archive_path w url ref) ≠ fileAt w (archive_path w url ref)) :
    (∃ repo t, w.remote.refs.lookup ref = some t ∧ repo.tree = some t
      ∧ fileAt w' (archive_path w url ref) = some (FileData.tar ⟨true, "app", repo⟩))
    ∧ ∀ (v : World) (d1 d2 : String) (repo : GitRepo) (p : String),
        _create_archive v d1 repo p = _create_archive v d2 repo p := by
  refine ⟨?_, fun v d1 d2 repo p => rfl⟩
  rcases fetch_success_shape w url ref w' h with ⟨_, hw⟩ | ⟨repo, t, hlook, htree, _, hfile⟩
  · subst hw
    exact absurd (fileAt_makedirs w (package_dir_path w url) (archive_path w url ref)) hchange
  · exact ⟨repo, t, hlook, htree, hfile⟩

/-- The world of claim C5's witness: empty package directory, healthy
remote, so the clone path writes a fresh archive. -/
def c5World : World := baseWorld

/-- Witness for C5 at a concrete input: the clone path writes the
`app`-rooted gzip archive for the resolved ref. -/
theorem C5_archive_shape_witness :
    (∃ repo t, c5World.remote.refs.lookup "main" = some t ∧ repo.tree = some t
      ∧ fileAt (fetch_source c5World "https://example.com/foo/bar.git" "main").1
          (archive_path c5World "https://example.com/foo/bar.git" "main")
          = some (FileData.tar ⟨true, "app", repo⟩))
    ∧ ∀ (v : World) (d1 d2 : String) (repo : GitRepo) (p : String),
        _create_archive v d1 repo p = _create_archive v d2 repo p :=
  C5_archive_shape c5World "https://example.com/foo/bar.git" "main"
    (fetch_source c5World "https://example.com/foo/bar.git" "main").1 (by decide) (by decide)

/-- The world of claim C1's counterexample: the only candidate seed is the
corrupt file at the archive path itself. -/
def c1BadWorld : World :=
  { baseWorld with
    dirs := mkdirsList "/srv/foo/bar"
    files := [⟨"/srv/foo/bar/main.tar.gz", FileData.corrupt, 5⟩] }

/-- Counterexample to C1 as stated: an unrecoverable failure (the corrupt
seed read) surfaces as an uncaught `tarfile.ReadError`, not as the domain
error. -/
theorem C1_counterexample :
    (fetch_source c1BadWorld "https://example.com/foo/bar.git" "main").2
        = some FetchError.tarRead
      ∧ FetchError.tarRead.isDomain = false := by decide

/-- C1 (amended): a successful `fetch_source` guarantees a valid archive
at the deterministic path for `(repo_name url, ref)` (the function itself
returns no value); failures of the clone and of the remote fetch raise the
domain error, while a corrupt seed read or an unwritable archive path
raises a plain I/O error instead. -/
theorem C1_fetch_source_contract (w : World) (url ref : String) (w' : World)
    (oe : Option FetchError) (h : fetch_source w url ref = (w', oe)) :
    (oe = none → ∃ a, fileAt w' (archive_path w url ref) = some (FileData.tar a))
    ∧ (is_tarfile w (archive_path w url ref) = false →
        maxByCtime (globTarGz w (package_dir_path w url)) = none →
        w.remote.cloneOk = false →
        oe = some (FetchError.cachito cloneFailMsg))
    ∧ (∀ prev a, is_tarfile w (archive_path w url ref) = false →
        maxByCtime (globTarGz w (package_dir_path w url)) = some prev →
        fileAt w prev.path = some (FileData.tar a) →
        a.gzip = true → a.topName = "app" → a.repo.hasRemote = true →
        w.remote.fetchOk = false →
        oe = some (FetchError.cachito fetchFailMsg)) := by
  refine ⟨?_, ?_, ?_⟩
  · intro hnone
    subst hnone
    rcases fetch_success_shape w url ref w' h with ⟨hhit, hw⟩ | ⟨repo, t, _, _, _, hfile⟩
    · subst hw
      obtain ⟨a, hf⟩ := is_tarfile_inv w _ hhit
      exact ⟨a, by rw [fileAt_makedirs]; exact hf⟩
    · exact ⟨_, hfile⟩
  · intro hmiss hmax hclone
    rcases fetch_cases w url ref w' oe h with ⟨hhit, _, _⟩ | ⟨_, ⟨prev, hmax2, _⟩ | ⟨_, hc⟩⟩
    · rw [hhit] at hmiss; exact absurd hmiss (by simp)
    · rw [hmax] at hmax2; exact absurd hmax2 (by simp)
    · rcases clone_cases _ _ _ _ _ hc with ⟨_, _, hoe⟩ | ⟨hcl, _, _, _⟩ | ⟨t, hcl, _, _⟩
      · exact hoe
      · rw [makedirs_remote, hclone] at hcl; exact absurd hcl (by simp)
      · rw [makedirs_remote, hclone] at hcl; exact absurd hcl (by simp)
  · intro prev a hmiss hmax hfile hgz htop hrem hfok
    rcases fetch_cases w url ref w' oe h with ⟨hhit, _, _⟩ | ⟨_, ⟨prev2, hmax2, hu⟩ | ⟨hmax2, _⟩⟩
    · rw [hhit] at hmiss; exact absurd hmiss (by simp)
    · rw [hmax] at hmax2
      injection hmax2 with hprev
      subst hprev
      rcases update_cases _ _ _ _ _ _ hu with
        ⟨hf2, _, _⟩ | ⟨hf2, _, _⟩ | ⟨a2, hf2, hcase⟩
      · rw [fileAt_makedirs, hfile] at hf2; exact absurd hf2 (by simp)
      · rw [fileAt_makedirs, hfile] at hf2; exact absurd hf2 (by simp)
      · rw [fileAt_makedirs, hfile] at hf2
        injection hf2 with hf2
        injection hf2 with hf2
        subst hf2
        rcases hcase with ⟨hb, _, _⟩ | ⟨_, hb, _, _⟩ | ⟨_, _, hb, _, _⟩ | ⟨_, _, _, hrest⟩
        · rw [hgz] at hb; exact absurd hb (by simp)
        · exact absurd htop hb
        · rw [hrem] at hb; exact absurd hb (by simp)
        · rcases hrest with ⟨_, _, hoe⟩ | ⟨hb, _, _, _⟩ | ⟨t, hb, _, _⟩
          · exact hoe
          · rw [makedirs_remote, hfok] at hb; exact absurd hb (by simp)
          · rw [makedirs_remote, hfok] at hb; exact absurd hb (by simp)
    · rw [hmax] at hmax2; exact absurd hmax2 (by simp)

/-- The world of claim C1's witness: empty cache, healthy remote. -/
def c1GoodWorld : World := baseWorld

/-- Witness for C1 at a concrete input. -/
theorem C1_fetch_source_contract_witness :
    ((fetch_source c1GoodWorld "https://example.com/foo/bar.git" "main").2 = none →
      ∃ a, fileAt (fetch_source c1GoodWorld "https://example.com/foo/bar.git" "main").1
          (archive_path c1GoodWorld "https://example.com/foo/bar.git" "main")
        = some (FileData.tar a))
    ∧ (is_tarfile c1GoodWorld (archive_path c1GoodWorld "https://example.com/foo/bar.git" "main") = false →
        maxByCtime (globTarGz c1GoodWorld (package_dir_path c1GoodWorld "https://example.com/foo/bar.git")) = none →
        c1GoodWorld.remote.cloneOk = false →
        (fetch_source c1GoodWorld "https://example.com/foo/bar.git" "main").2
          = some (FetchError.cachito cloneFailMsg))
    ∧ (∀ prev a,
        is_tarfile c1GoodWorld (archive_path c1GoodWorld "https://example.com/foo/bar.git" "main") = false →
        maxByCtime (globTarGz c1GoodWorld (package_dir_path c1GoodWorld "https://example.com/foo/bar.git")) = some prev →
        fileAt c1GoodWorld prev.path = some (FileData.tar a) →
        a.gzip = true → a.topName = "app" → a.repo.hasRemote = true →
        c1GoodWorld.remote.fetchOk = false →
        (fetch_source c1GoodWorld "https://example.com/foo/bar.git" "main").2
          = some (FetchError.cachito fetchFailMsg)) :=
  C1_fetch_source_contract c1GoodWorld "https://example.com/foo/bar.git" "main"
    (fetch_source c1GoodWorld "https://example.com/foo/bar.git" "main").1
    (fetch_source c1GoodWorld "https://example.com/foo/bar.git" "main").2 rfl

/-- C2: an unresolvable ref never writes anything at the archive path (no
partial or corrupt archive is ever left there by any error path), and on
both the clone path and the seeded update path the failure is the
InvalidReference domain error. -/
theorem C2_invalid_ref_no_write (w : World) (url ref : String) (w' : World)
    (oe : Option FetchError) (h : fetch_source w url ref = (w', oe))
    (hlook : w.remote.refs.lookup ref = none) :
    (∀ e, oe = some e →
      fileAt w' (archive_path w url ref) = fileAt w (archive_path w url ref))
    ∧ (is_tarfile w (archive_path w url ref) = false →
        maxByCtime (globTarGz w (package_dir_path w url)) = none →
        w.remote.cloneOk = true →
        oe = some (FetchError.cachito (invalidRefMsg ref)))
    ∧ (∀ prev a, is_tarfile w (archive_path w url ref) = false →
        maxByCtime (globTarGz w (package_dir_path w url)) = some prev →
        fileAt w prev.path = some (FileData.tar a) →
        a.gzip = true → a.topName = "app" → a.repo.hasRemote = true →
        w.remote.fetchOk = true →
        oe = some (FetchError.cachito (invalidRefMsg ref))) := by
  refine ⟨?_, ?_, ?_⟩
  · intro e hoe
    subst hoe
    exact fileAt_congr_files _ _ _ (fetch_err_files w url ref w' e h)
  · intro hmiss hmax hclone
    rcases fetch_cases w url ref w' oe h with ⟨hhit, _, _⟩ | ⟨_, ⟨prev, hmax2, _⟩ | ⟨_, hc⟩⟩
    · rw [hhit] at hmiss; exact absurd hmiss (by simp)
    · rw [hmax] at hmax2; exact absurd hmax2 (by simp)
    · rcases clone_cases _ _ _ _ _ hc with ⟨hcl, _, _⟩ | ⟨_, _, _, hoe⟩ | ⟨t, _, hlk, _⟩
      · rw [makedirs_remote, hclone] at hcl; exact absurd hcl (by simp)
      · exact hoe
      · rw [makedirs_remote, hlook] at hlk; exact absurd hlk (by simp)
  · intro prev a hmiss hmax hfile hgz htop hrem hfok
    rcases fetch_cases w url ref w' oe h with ⟨hhit, _, _⟩ | ⟨_, ⟨prev2, hmax2, hu⟩ | ⟨hmax2, _⟩⟩
    · rw [hhit] at hmiss; exact absurd hmiss (by simp)
    · rw [hmax] at hmax2
      injection hmax2 with hprev
      subst hprev
      rcases update_cases _ _ _ _ _ _ hu with
        ⟨hf2, _, _⟩ | ⟨hf2, _, _⟩ | ⟨a2, hf2, hcase⟩
      · rw [fileAt_makedirs, hfile] at hf2; exact absurd hf2 (by simp)
      · rw [fileAt_makedirs, hfile] at hf2; exact absurd hf2 (by simp)
      · rw [fileAt_makedirs, hfile] at hf2
        injection hf2 with hf2
        injection hf2 with hf2
        subst hf2
        rcases hcase with ⟨hb, _, _⟩ | ⟨_, hb, _, _⟩ | ⟨_, _, hb, _, _⟩ | ⟨_, _, _, hrest⟩
        · rw [hgz] at hb; exact absurd hb (by simp)
        · exact absurd htop hb
        · rw [hrem] at hb; exact absurd hb (by simp)
        · rcases hrest with ⟨hb, _, _⟩ | ⟨_, _, _, hoe⟩ | ⟨t, _, hlk, _⟩
          · rw [makedirs_remote, hfok] at hb; exact absurd hb (by simp)
          · exact hoe
          · rw [makedirs_remote, hlook] at hlk; exact absurd hlk (by simp)
    · rw [hmax] at hmax2; exact absurd hmax2 (by simp)

/-- The world of claim C2's witness: no revision is resolvable. -/
def c2World : World :=
  { baseWorld with remote := { cloneOk := true, fetchOk := true, refs := [] } }

/-- Witness for C2 at a concrete input. -/
theorem C2_invalid_ref_no_write_witness :
    (∀ e, (fetch_source c2World "https://example.com/foo/bar.git" "nope").2 = some e →
      fileAt (fetch_source c2World "https://example.com/foo/bar.git" "nope").1
          (archive_path c2World "https://example.com/foo/bar.git" "nope")
        = fileAt c2World (archive_path c2World "https://example.com/foo/bar.git" "nope"))
    ∧ (is_tarfile c2World (archive_path c2World "https://example.com/foo/bar.git" "nope") = false →
        maxByCtime (globTarGz c2World (package_dir_path c2World "https://example.com/foo/bar.git")) = none →
        c2World.remote.cloneOk = true →
        (fetch_source c2World "https://example.com/foo/bar.git" "nope").2
          = some (FetchError.cachito (invalidRefMsg "nope")))
    ∧ (∀ prev a,
        is_tarfile c2World (archive_path c2World "https://example.com/foo/bar.git" "nope") = false →
        maxByCtime (globTarGz c2World (package_dir_path c2World "https://example.com/foo/bar.git")) = some prev →
        fileAt c2World prev.path = some (FileData.tar a) →
        a.gzip = true → a.topName = "app" → a.repo.hasRemote = true →
        c2World.remote.fetchOk = true →
        (fetch_source c2World "https://example.com/foo/bar.git" "nope").2
          = some (FetchError.cachito (invalidRefMsg "nope"))) :=
  C2_invalid_ref_no_write c2World "https://example.com/foo/bar.git" "nope"
    (fetch_source c2World "https://example.com/foo/bar.git" "nope").1
    (fetch_source c2World "https://example.com/foo/bar.git" "nope").2 rfl (by decide)

/-- C4: on a cache miss with no candidate archive in the package directory
`fetch_source` performs a full clone; with candidates it selects the one
with the greatest creation time as seed and takes the update path, logging
at most a fetch and never a clone. -/
theorem C4_seed_selection (w : World) (url ref : String) (w' : World) (oe : Option FetchError)
    (h : fetch_source w url ref = (w', oe))
    (hmiss : is_tarfile w (archive_path w url ref) = false) :
    (maxByCtime (globTarGz w (package_dir_path w url)) = none →
      w'.netLog = NetOp.clone :: w.netLog)
    ∧ (∀ prev, maxByCtime (globTarGz w (package_dir_path w url)) = some prev →
        prev ∈ globTarGz w (package_dir_path w url)
        ∧ (∀ x ∈ globTarGz w (package_dir_path w url), x.ctime ≤ prev.ctime)
        ∧ (w'.netLog = w.netLog ∨ w'.netLog = NetOp.fetch :: w.netLog)) := by
  refine ⟨?_, ?_⟩
  · intro hmax
    rcases fetch_cases w url ref w' oe h with ⟨hhit, _, _⟩ | ⟨_, ⟨prev, hmax2, _⟩ | ⟨_, hc⟩⟩
    · rw [hhit] at hmiss; exact absurd hmiss (by simp)
    · rw [hmax] at hmax2; exact absurd hmax2 (by simp)
    · have hn := clone_netLog _ _ _ _ _ hc
      rw [makedirs_netLog] at hn
      exact hn
  · intro prev hmax
    obtain ⟨hmem, hmaxc⟩ := maxByCtime_spec _ _ hmax
    refine ⟨hmem, hmaxc, ?_⟩
    rcases fetch_cases w url ref w' oe h with ⟨hhit, _, _⟩ | ⟨_, ⟨prev2, hmax2, hu⟩ | ⟨hmax2, _⟩⟩
    · rw [hhit] at hmiss; exact absurd hmiss (by simp)
    · have hn := update_netLog _ _ _ _ _ _ hu
      rw [makedirs_netLog] at hn
      exact hn
    · rw [hmax] at hmax2; exact absurd hmax2 (by simp)

/-- The world of claim C4's witness: one valid seed archive is present. -/
def c4World : World :=
  { baseWorld with
    dirs := mkdirsList "/srv/foo/bar"
    files := [⟨"/srv/foo/bar/old.tar.gz", FileData.tar ⟨true, "app", ⟨true, [("old", 7)], some 7⟩⟩, 3⟩]
    remote := { cloneOk := true, fetchOk := true, refs := [("main", 1), ("old", 7)] } }

/-- Witness for C4 at a concrete input. -/
theorem C4_seed_selection_witness :
    (maxByCtime (globTarGz c4World (package_dir_path c4World "https://example.com/foo/bar.git")) = none →
      (fetch_source c4World "https://example.com/foo/bar.git" "main").1.netLog
        = NetOp.clone :: c4World.netLog)
    ∧ (∀ prev,
        maxByCtime (globTarGz c4World (package_dir_path c4World "https://example.com/foo/bar.git")) = some prev →
        prev ∈ globTarGz c4World (package_dir_path c4World "https://example.com/foo/bar.git")
        ∧ (∀ x ∈ globTarGz c4World (package_dir_path c4World "https://example.com/foo/bar.git"),
            x.ctime ≤ prev.ctime)
        ∧ ((fetch_source c4World "https://example.com/foo/bar.git" "main").1.netLog = c4World.netLog
          ∨ (fetch_source c4World "https://example.com/foo/bar.git" "main").1.netLog
              = NetOp.fetch :: c4World.netLog)) :=
  C4_seed_selection c4World "https://example.com/foo/bar.git" "main"
    (fetch_source c4World "https://example.com/foo/bar.git" "main").1
    (fetch_source c4World "https://example.com/foo/bar.git" "main").2 rfl (by decide)

/-- The world of claim C8's counterexample: clean environment, empty
cache, healthy remote. -/
def c8World : World := baseWorld

/-- Counterexample to C8 as stated: a completed (successful) call leaves
the process-wide `GIT_TERMINAL_PROMPT` variable set, where it was unset
before. -/
theorem C8_counterexample :
    getEnv c8World "GIT_TERMINAL_PROMPT" = none
      ∧ (fetch_source c8World "https://example.com/foo/bar.git" "main").2 = none
      ∧ getEnv (fetch_source c8World "https://example.com/foo/bar.git" "main").1
          "GIT_TERMINAL_PROMPT" = some "0" := by decide

/-- C8 (amended): the clone path suppresses interactive prompts by
mutating the process-wide environment (`GIT_TERMINAL_PROMPT=0`) and leaves
it set after completion, while the cache-hit and seeded update paths leave
the environment unchanged. -/
theorem C8_env_mutation (w : World) (url ref : String) (w' : World) (oe : Option FetchError)
    (h : fetch_source w url ref = (w', oe)) :
    (w'.env = w.env
      ∨ w'.env = ("GIT_TERMINAL_PROMPT", "0")
          :: w.env.filter (fun kv => kv.1 != "GIT_TERMINAL_PROMPT"))
    ∧ (is_tarfile w (archive_path w url ref) = true → w'.env = w.env)
    ∧ (∀ prev, maxByCtime (globTarGz w (package_dir_path w url)) = some prev → w'.env = w.env)
    ∧ (is_tarfile w (archive_path w url ref) = false →
        maxByCtime (globTarGz w (package_dir_path w url)) = none →
        w'.env = ("GIT_TERMINAL_PROMPT", "0")
          :: w.env.filter (fun kv => kv.1 != "GIT_TERMINAL_PROMPT")) := by
  rcases fetch_cases w url ref w' oe h with ⟨hhit, hw, _⟩ | ⟨hmiss, ⟨prev, hmax, hu⟩ | ⟨hmax, hc⟩⟩
  · subst hw
    refine ⟨Or.inl (by simp), fun _ => by simp, fun _ _ => by simp, fun hm _ => ?_⟩
    rw [hhit] at hm; exact absurd hm (by simp)
  · obtain ⟨_, _, _, _, henv⟩ := update_frame _ _ _ _ _ _ hu
    rw [makedirs_env] at henv
    refine ⟨Or.inl henv, fun _ => henv, fun _ _ => henv, fun _ hmx => ?_⟩
    rw [hmax] at hmx; exact absurd hmx (by simp)
  · have henv := clone_env _ _ _ _ _ hc
    rw [makedirs_env] at henv
    refine ⟨Or.inr henv, fun hh => ?_, fun prev hmx => ?_, fun _ _ => henv⟩
    · rw [hh] at hmiss; exact absurd hmiss (by simp)
    · rw [hmax] at hmx; exact absurd hmx (by simp)

/-- Witness for C8's amended statement at a concrete input. -/
theorem C8_env_mutation_witness :
    ((fetch_source c8World "https://example.com/foo/bar.git" "main").1.env = c8World.env
      ∨ (fetch_source c8World "https://example.com/foo/bar.git" "main").1.env
          = ("GIT_TERMINAL_PROMPT", "0")
            :: c8World.env.filter (fun kv => kv.1 != "GIT_TERMINAL_PROMPT"))
    ∧ (is_tarfile c8World (archive_path c8World "https://example.com/foo/bar.git" "main") = true →
        (fetch_source c8World "https://example.com/foo/bar.git" "main").1.env = c8World.env)
    ∧ (∀ prev,
        maxByCtime (globTarGz c8World (package_dir_path c8World "https://example.com/foo/bar.git")) = some prev →
        (fetch_source c8World "https://example.com/foo/bar.git" "main").1.env = c8World.env)
    ∧ (is_tarfile c8World (archive_path c8World "https://example.com/foo/bar.git" "main") = false →
        maxByCtime (globTarGz c8World (package_dir_path c8World "https://example.com/foo/bar.git")) = none →
        (fetch_source c8World "https://example.com/foo/bar.git" "main").1.env
          = ("GIT_TERMINAL_PROMPT", "0")
            :: c8World.env.filter (fun kv => kv.1 != "GIT_TERMINAL_PROMPT")) :=
  C8_env_mutation c8World "https://example.com/foo/bar.git" "main"
    (fetch_source c8World "https://example.com/foo/bar.git" "main").1
    (fetch_source c8World "https://example.com/foo/bar.git" "main").2 rfl

/-- C9: on a cache miss, a failing remote fetch over a found valid seed
surfaces as the FetchFailure domain error with no fall-back clone (exactly
one fetch and no clone in the network log), and on the no-seed path a
failing clone surfaces as the CloneFailure domain error. -/
theorem C9_domain_failures (w : World) (url ref : String) (w' : World) (oe : Option FetchError)
    (h : fetch_source w url ref = (w', oe))
    (hmiss : is_tarfile w (archive_path w url ref) = false) :
    (∀ prev a, maxByCtime (globTarGz w (package_dir_path w url)) = some prev →
      fileAt w prev.path = some (FileData.tar a) →
      a.gzip = true → a.topName = "app" → a.repo.hasRemote = true →
      w.remote.fetchOk = false →
      oe = some (FetchError.cachito fetchFailMsg)
        ∧ w'.netLog = NetOp.fetch :: w.netLog)
    ∧ (maxByCtime (globTarGz w (package_dir_path w url)) = none →
        w.remote.cloneOk = false →
        oe = some (FetchError.cachito cloneFailMsg)) := by
  refine ⟨?_, ?_⟩
  · intro prev a hmax hfile hgz htop hrem hfok
    rcases fetch_cases w url ref w' oe h with ⟨hhit, _, _⟩ | ⟨_, ⟨prev2, hmax2, hu⟩ | ⟨hmax2, _⟩⟩
    · rw [hhit] at hmiss; exact absurd hmiss (by simp)
    · rw [hmax] at hmax2
      injection hmax2 with hprev
      subst hprev
      rcases update_cases _ _ _ _ _ _ hu with
        ⟨hf2, _, _⟩ | ⟨hf2, _, _⟩ | ⟨a2, hf2, hcase⟩
      · rw [fileAt_makedirs, hfile] at hf2; exact absurd hf2 (by simp)
      · rw [fileAt_makedirs, hfile] at hf2; exact absurd hf2 (by simp)
      · rw [fileAt_makedirs, hfile] at hf2
        injection hf2 with hf2
        injection hf2 with hf2
        subst hf2
        rcases hcase with ⟨hb, _, _⟩ | ⟨_, hb, _, _⟩ | ⟨_, _, hb, _, _⟩ | ⟨_, _, _, hrest⟩
        · rw [hgz] at hb; exact absurd hb (by simp)
        · exact absurd htop hb
        · rw [hrem] at hb; exact absurd hb (by simp)
        · rcases hrest with ⟨_, hw, hoe⟩ | ⟨hb, _, _, _⟩ | ⟨t, hb, _, _⟩
          · subst hw
            exact ⟨hoe, by simp⟩
          · rw [makedirs_remote, hfok] at hb; exact absurd hb (by simp)
          · rw [makedirs_remote, hfok] at hb; exact absurd hb (by simp)
    · rw [hmax] at hmax2; exact absurd hmax2 (by simp)
  · intro hmax hclone
    rcases fetch_cases w url ref w' oe h with ⟨hhit, _, _⟩ | ⟨_, ⟨prev, hmax2, _⟩ | ⟨_, hc⟩⟩
    · rw [hhit] at hmiss; exact absurd hmiss (by simp)
    · rw [hmax] at hmax2; exact absurd hmax2 (by simp)
    · rcases clone_cases _ _ _ _ _ hc with ⟨_, _, hoe⟩ | ⟨hcl, _, _, _⟩ | ⟨t, hcl, _, _⟩
      · exact hoe
      · rw [makedirs_remote, hclone] at hcl; exact absurd hcl (by simp)
      · rw [makedirs_remote, hclone] at hcl; exact absurd hcl (by simp)

/-- The world of claim C9's witness: a valid seed archive is present but
the remote refuses the fetch. -/
def c9World : World :=
  { baseWorld with
    dirs := mkdirsList "/srv/foo/bar"
    files := [⟨"/srv/foo/bar/old.tar.gz", FileData.tar ⟨true, "app", ⟨true, [("old", 7)], some 7⟩⟩, 3⟩]
    remote := { cloneOk := true, fetchOk := false, refs := [("main", 1), ("old", 7)] } }

/-- Witness for C9 at a concrete input. -/
theorem C9_domain_failures_witness :
    (∀ prev a,
      maxByCtime (globTarGz c9World (package_dir_path c9World "https://example.com/foo/bar.git")) = some prev →
      fileAt c9World prev.path = some (FileData.tar a) →
      a.gzip = true → a.topName = "app" → a.repo.hasRemote = true →
      c9World.remote.fetchOk = false →
      (fetch_source c9World "https://example.com/foo/bar.git" "main").2
          = some (FetchError.cachito fetchFailMsg)
        ∧ (fetch_source c9World "https://example.com/foo/bar.git" "main").1.netLog
          = NetOp.fetch :: c9World.netLog)
    ∧ (maxByCtime (globTarGz c9World (package_dir_path c9World "https://example.com/foo/bar.git")) = none →
        c9World.remote.cloneOk = false →
        (fetch_source c9World "https://example.com/foo/bar.git" "main").2
          = some (FetchError.cachito cloneFailMsg)) :=
  C9_domain_failures c9World "https://example.com/foo/bar.git" "main"
    (fetch_source c9World "https://example.com/foo/bar.git" "main").1
    (fetch_source c9World "https://example.com/foo/bar.git" "main").2 rfl (by decide)

/-- C10: for a ref containing a slash the archive name is
`ref ++ ".tar.gz"`, so the archive path lands in a subdirectory of the
package directory that the code never creates; a cache-miss fetch that
reaches the archive write then fails with the uncaught file-open error and
produces no archive at that path. -/
theorem C10_slash_ref_write_failure (w : World) (url ref : String) (w' : World)
    (oe : Option FetchError) (h : fetch_source w url ref = (w', oe))
    (hslash : (chars ref).contains '/' = true)
    (hfile : fileAt w (archive_path w url ref) = none)
    (hmax : maxByCtime (globTarGz w (package_dir_path w url)) = none)
    (hclone : w.remote.cloneOk = true)
    (ht : ∃ t, w.remote.refs.lookup ref = some t)
    (hdir : pyDirname (archive_path w url ref) ∉ w.dirs)
    (hlen : (package_dir_path w url).length < (pyDirname (archive_path w url ref)).length) :
    archive_name ref = ref ++ ".tar.gz"
      ∧ oe = some (FetchError.fileNotFound (archive_path w url ref))
      ∧ fileAt w' (archive_path w url ref) = none := by
  have hmiss : is_tarfile w (archive_path w url ref) = false := by
    unfold is_tarfile; rw [hfile]
  have hnd : (makedirs w (package_dir_path w url)).dirs.contains
      (pyDirname (archive_path w url ref)) = false :=
    makedirs_not_contains w _ _ hdir hlen
  rcases fetch_cases w url ref w' oe h with ⟨hhit, _, _⟩ | ⟨_, ⟨prev, hmax2, _⟩ | ⟨hmax2, hc⟩⟩
  · rw [hhit] at hmiss; exact absurd hmiss (by simp)
  · rw [hmax] at hmax2; exact absurd hmax2 (by simp)
  · obtain ⟨t, hlk⟩ := ht
    rcases clone_cases _ _ _ _ _ hc with
      ⟨hcl, _, _⟩ | ⟨_, hlk2, _, _⟩ | ⟨t2, _, hlk2, ⟨hdc, _, _⟩ | ⟨_, hw, hoe⟩⟩
    · rw [makedirs_remote, hclone] at hcl; exact absurd hcl (by simp)
    · rw [makedirs_remote, hlk] at hlk2; exact absurd hlk2 (by simp)
    · rw [hnd] at hdc; exact absurd hdc (by simp)
    · subst hw
      refine ⟨rfl, hoe, ?_⟩
      rw [fileAt_logNet, fileAt_setEnv, fileAt_makedirs]
      exact hfile

/-- The world of claim C10's witness: the branch-like ref resolves but no
subdirectory for it exists under the package directory. -/
def c10World : World :=
  { baseWorld with remote := { cloneOk := true, fetchOk := true, refs := [("feature/x", 2)] } }

/-- Witness for C10 at a concrete input. -/
theorem C10_slash_ref_write_failure_witness :
    archive_name "feature/x" = "feature/x" ++ ".tar.gz"
      ∧ (fetch_source c10World "https://example.com/foo/bar.git" "feature/x").2
          = some (FetchError.fileNotFound
              (archive_path c10World "https://example.com/foo/bar.git" "feature/x"))
      ∧ fileAt (fetch_source c10World "https://example.com/foo/bar.git" "feature/x").1
          (archive_path c10World "https://example.com/foo/bar.git" "feature/x") = none :=
  C10_slash_ref_write_failure c10World "https://example.com/foo/bar.git" "feature/x"
    (fetch_source c10World "https://example.com/foo/bar.git" "feature/x").1
    (fetch_source c10World "https://example.com/foo/bar.git" "feature/x").2 rfl
    (by decide) (by decide) (by decide) (by decide) ⟨2, by decide⟩ (by decide) (by decide)

end Cachito
